import Mathlib

/-!
Shallow embedding of the `issues_integration` repository (Python) in Lean 4,
covering the parts of the code referenced by the specification:

* `src/utils.py` — `validate_repo_name`, `parse_issue_url`,
  `calculate_confidence_level`;
* `src/devin_client.py` — `DevinClient.wait_for_completion`, the structured
  output normalization in `get_session_status`, and the result extraction in
  `scope_issue` / `generate_summary`;
* `src/exceptions.py` — the exception hierarchy relevant to session timeouts;
* `src/web_server.py` — `load_cached_result` / `save_cached_result`.

Modelling conventions:

* JSON data (Python dict/list/str/number/bool/None values) is the inductive
  type `JValue`; Python `float` values are modelled as rationals `ℚ` (the
  code only builds, compares against, and passes through the literals
  `0.5`, `0.8`, `1.5`, `30`, so no rounding behaviour is observable);
* Python truthiness (`or` chains, `if not output`) is the function `truthy`;
* exceptions escape as an explicit error constructor (`PyExc`);
* the real-time sleeping of `asyncio.sleep` is recorded as a trace of slept
  durations rather than performed.
-/

/-- A JSON value: the Python data reachable from `json.loads` /
`response.json()` in the client code.  Python `None` is `JValue.null`;
numbers are modelled as rationals. -/
inductive JValue : Type where
  | null : JValue
  | bool : Bool → JValue
  | num : ℚ → JValue
  | str : String → JValue
  | arr : List JValue → JValue
  | obj : List (String × JValue) → JValue

namespace JValue

/-- Python truthiness: `None`, `False`, `0`, `""`, `[]`, `{}` are falsy,
everything else truthy.  This is the meaning of `x or y` and `if not x`
applied to JSON data in the client code. -/
def truthy : JValue → Bool
  | .null => false
  | .bool b => b
  | .num q => q ≠ 0
  | .str s => s ≠ ""
  | .arr xs => !xs.isEmpty
  | .obj kvs => !kvs.isEmpty

/-- Python `d.get(k)` on a dict (`None`, i.e. absent, is `none`).
Python dict keys are unique, so first-match lookup is exact.
(On a non-dict value Python would raise `AttributeError`; that path is not
reachable from the inputs considered here and is modelled as absence.) -/
def jget : JValue → String → Option JValue
  | .obj kvs, k => kvs.lookup k
  | _, _ => none

/-- The Python idiom `d.get(k) or alt`: the value at `k` when it is present
*and truthy*, otherwise `alt`. -/
def getOr (o : JValue) (k : String) (alt : JValue) : JValue :=
  match o.jget k with
  | some v => if v.truthy then v else alt
  | none => alt

end JValue

/-- Characters allowed by the repository-name character class
`[a-zA-Z0-9._-]` in `utils.validate_repo_name`. -/
def isRepoChar (c : Char) : Bool :=
  ('a' ≤ c && c ≤ 'z') || ('A' ≤ c && c ≤ 'Z') || ('0' ≤ c && c ≤ '9') ||
    c = '.' || c = '_' || c = '-'

/-- Python's `$` anchor (no `re.MULTILINE`) matches at the end of the string
or just before a single final newline; so a `$`-anchored pattern fully
matches `s` iff it fully matches `s` with one trailing `'\n'` removed. -/
def stripFinalNewline (cs : List Char) : List Char :=
  if cs.getLast? = some '\n' then cs.dropLast else cs

/-- Embeds `utils.validate_repo_name`: `re.match(r'^[a-zA-Z0-9._-]+/[a-zA-Z0-9._-]+$', s)`.
A full match of `^[C]+/[C]+$` (with `'/' ∉ C`) decomposes the (possibly
newline-stripped) string as a maximal run of `C`-characters, a `'/'`, and a
remainder that is nonempty and all in `C`. -/
def validateRepoChars (cs : List Char) : Bool :=
  let t := stripFinalNewline cs
  let a := t.takeWhile (· ≠ '/')
  match t.dropWhile (· ≠ '/') with
  | '/' :: b => !a.isEmpty && !b.isEmpty && a.all isRepoChar && b.all isRepoChar
  | _ => false

/-- The `utils.validate_repo_name` function on strings. -/
def validate_repo_name (s : String) : Bool :=
  validateRepoChars s.data

/-- Matching a literal piece of a regex: consume exactly the characters of
`lit` from the front of the input, failing otherwise. -/
def dropLit : List Char → List Char → Option (List Char)
  | [], cs => some cs
  | _ :: _, [] => none
  | p :: ps, c :: cs => if c = p then dropLit ps cs else none

/-- The numeric value of a run of decimal digit characters, as read by
Python `int()` (most significant digit first). -/
def digitsToNat (cs : List Char) : ℕ :=
  cs.foldl (fun n c => 10 * n + (c.toNat - 48)) 0

/-- Embeds `utils.parse_issue_url`:
`re.match(r'https://github\.com/([^/]+/[^/]+)/issues/(\d+)', url)`, returning
`(group(1), int(group(2)))` on success.  `re.match` anchors at the start
only; `[^/]+` is a maximal nonempty run of non-`'/'` characters (no
backtracking is possible since shortening a run puts a non-`'/'` character
where the following literal `'/'` must match); `\d+` is a maximal nonempty
digit run (modelled as ASCII digits). -/
def parseIssueUrlChars (cs : List Char) : Option (List Char × ℕ) :=
  match dropLit "https://github.com/".data cs with
  | none => none
  | some r =>
    let a := r.takeWhile (· ≠ '/')
    match r.dropWhile (· ≠ '/') with
    | '/' :: r2 =>
      let b := r2.takeWhile (· ≠ '/')
      if a.isEmpty || b.isEmpty then none
      else
        match dropLit "/issues/".data (r2.dropWhile (· ≠ '/')) with
        | none => none
        | some r4 =>
          let d := r4.takeWhile Char.isDigit
          if d.isEmpty then none
          else some (a ++ '/' :: b, digitsToNat d)
    | _ => none

/-- The `utils.parse_issue_url` function on strings. -/
def parse_issue_url (url : String) : Option (String × ℕ) :=
  (parseIssueUrlChars url.data).map (fun p => (⟨p.1⟩, p.2))

/-- The decimal digit character for `d < 10` (Python `str(n)` rendering). -/
def digitToChar (d : ℕ) : Char :=
  Char.ofNat (48 + d)

/-- The decimal rendering of a natural number, most significant digit
first: the character string Python produces for an issue number when
building a URL. -/
def natDecimalChars (n : ℕ) : List Char :=
  if n = 0 then ['0'] else ((Nat.digits 10 n).reverse.map digitToChar)

/-- Decimal rendering as a string. -/
def natDecimalString (n : ℕ) : String :=
  ⟨natDecimalChars n⟩

/-- Embeds `utils.calculate_confidence_level`: threshold bucketing of a confidence
score into the strings `"high"` / `"medium"` / `"low"`. -/
def calculate_confidence_level (score : ℚ) : String :=
  if score ≥ 8/10 then "high"
  else if score ≥ 5/10 then "medium"
  else "low"

/-- The `models.ConfidenceLevel` enum (`str`-valued). -/
inductive ConfidenceLevel : Type where
  | low : ConfidenceLevel
  | medium : ConfidenceLevel
  | high : ConfidenceLevel
deriving DecidableEq

/-- The `.value` string of a `models.ConfidenceLevel` member. -/
def ConfidenceLevel.value : ConfidenceLevel → String
  | .low => "low"
  | .medium => "medium"
  | .high => "high"

/-- The confidence bucketing written inline in `DevinClient.scope_issue`
(lines 157–162 of `devin_client.py`). -/
def scopeConfidenceLevel (confidence_score : ℚ) : ConfidenceLevel :=
  if confidence_score ≥ 8/10 then .high
  else if confidence_score ≥ 5/10 then .medium
  else .low

/-- The confidence bucketing written inline in `DevinClient.generate_summary`
(lines 296–301 of `devin_client.py`). -/
def summaryConfidenceLevel (confidence_score : ℚ) : ConfidenceLevel :=
  if confidence_score ≥ 8/10 then .high
  else if confidence_score ≥ 5/10 then .medium
  else .low

/-! ### A model of `json.loads`

The client calls the Python standard library's `json.loads` on string
payloads.  The recursive-descent parser below follows the JSON grammar
(RFC 8259) that `json.loads` implements with its default arguments:
whitespace-separated values, the literals `null` / `true` / `false`,
numbers without leading zeros or a bare `'.'`, strings with the standard
escapes, arrays and objects.  (Simplifications that no claim exercises:
surrogate pairs in `\u` escapes are not combined, `NaN`/`Infinity`
extensions are not accepted, and duplicate object keys are kept rather
than letting the later one win.) -/

/-- JSON insignificant whitespace. -/
def jsonWs (c : Char) : Bool :=
  c = ' ' || c = '\t' || c = '\n' || c = '\r'

/-- Drop leading JSON whitespace. -/
def skipWs (cs : List Char) : List Char :=
  cs.dropWhile jsonWs

/-- The character denoted by a single-character JSON escape. -/
def escapeChar (c : Char) : Option Char :=
  if c = '"' then some '"'
  else if c = '\\' then some '\\'
  else if c = '/' then some '/'
  else if c = 'b' then some (Char.ofNat 8)
  else if c = 'f' then some (Char.ofNat 12)
  else if c = 'n' then some '\n'
  else if c = 'r' then some '\r'
  else if c = 't' then some '\t'
  else none

/-- The value of a hexadecimal digit. -/
def hexDigitVal (c : Char) : Option ℕ :=
  if '0' ≤ c ∧ c ≤ '9' then some (c.toNat - 48)
  else if 'a' ≤ c ∧ c ≤ 'f' then some (c.toNat - 87)
  else if 'A' ≤ c ∧ c ≤ 'F' then some (c.toNat - 55)
  else none

/-- The body of a JSON string, after the opening quote: characters up to the
closing quote, with escapes decoded; unescaped control characters are
rejected (strict mode). -/
def parseJStringBody : List Char → List Char → Option (String × List Char)
  | _, [] => none
  | acc, '"' :: rest => some (⟨acc.reverse⟩, rest)
  | acc, '\\' :: 'u' :: h1 :: h2 :: h3 :: h4 :: rest =>
    match hexDigitVal h1, hexDigitVal h2, hexDigitVal h3, hexDigitVal h4 with
    | some a, some b, some c, some d =>
      parseJStringBody (Char.ofNat (((a * 16 + b) * 16 + c) * 16 + d) :: acc) rest
    | _, _, _, _ => none
  | acc, '\\' :: c :: rest =>
    match escapeChar c with
    | some e => parseJStringBody (e :: acc) rest
    | none => none
  | acc, c :: rest =>
    if c.toNat < 32 then none else parseJStringBody (c :: acc) rest

/-- The exponent tail of a JSON/Python number, after the `e`/`E`. -/
def parseExpTail (r : List Char) : Option (ℤ × List Char) :=
  let (eneg, r1) : Bool × List Char :=
    match r with
    | '+' :: t => (false, t)
    | '-' :: t => (true, t)
    | _ => (false, r)
  let ed := r1.takeWhile Char.isDigit
  if ed.isEmpty then none
  else
    some ((if eneg then -(digitsToNat ed : ℤ) else (digitsToNat ed : ℤ)),
      r1.dropWhile Char.isDigit)

/-- A JSON number: `-? int frac? exp?` with no leading zeros and with a
digit required on both the whole (`int`) side and, when a `'.'` is present,
the fractional side. -/
def parseJNumber (cs : List Char) : Option (ℚ × List Char) :=
  let (sgn, cs1) : ℚ × List Char :=
    match cs with
    | '-' :: r => (-1, r)
    | _ => (1, cs)
  let ip := cs1.takeWhile Char.isDigit
  let r1 := cs1.dropWhile Char.isDigit
  if ip.isEmpty then none
  else if 1 < ip.length ∧ ip.headD '0' = '0' then none
  else
    let (fp, r2) : List Char × List Char :=
      match r1 with
      | '.' :: r => (r.takeWhile Char.isDigit, r.dropWhile Char.isDigit)
      | _ => ([], r1)
    if (match r1 with | '.' :: _ => fp.isEmpty | _ => false) then none
    else
      let mantissa : ℚ :=
        sgn * ((digitsToNat ip : ℚ) + (digitsToNat fp : ℚ) / (10 : ℚ) ^ fp.length)
      match r2 with
      | 'e' :: r => (parseExpTail r).map (fun p => (mantissa * (10 : ℚ) ^ p.1, p.2))
      | 'E' :: r => (parseExpTail r).map (fun p => (mantissa * (10 : ℚ) ^ p.1, p.2))
      | _ => some (mantissa, r2)

mutual

/-- A JSON value (fuel-indexed recursive descent; the fuel only bounds the
nesting depth and is chosen generously at the top level). -/
def parseJValue : ℕ → List Char → Option (JValue × List Char)
  | 0, _ => none
  | fuel + 1, cs =>
    match skipWs cs with
    | 'n' :: 'u' :: 'l' :: 'l' :: r => some (.null, r)
    | 't' :: 'r' :: 'u' :: 'e' :: r => some (.bool true, r)
    | 'f' :: 'a' :: 'l' :: 's' :: 'e' :: r => some (.bool false, r)
    | '"' :: r => (parseJStringBody [] r).map (fun p => (.str p.1, p.2))
    | '[' :: r =>
      (match skipWs r with
       | ']' :: r2 => some (.arr [], r2)
       | _ => (parseJItems fuel r).map (fun p => (.arr p.1, p.2)))
    | '{' :: r =>
      (match skipWs r with
       | '}' :: r2 => some (.obj [], r2)
       | _ => (parseJMembers fuel r).map (fun p => (.obj p.1, p.2)))
    | cs1 => (parseJNumber cs1).map (fun p => (.num p.1, p.2))

/-- One or more comma-separated array items, up to the closing bracket. -/
def parseJItems : ℕ → List Char → Option (List JValue × List Char)
  | 0, _ => none
  | fuel + 1, cs =>
    match parseJValue fuel cs with
    | none => none
    | some (v, r) =>
      match skipWs r with
      | ',' :: r2 => (parseJItems fuel r2).map (fun p => (v :: p.1, p.2))
      | ']' :: r2 => some ([v], r2)
      | _ => none

/-- One or more comma-separated object members, up to the closing brace. -/
def parseJMembers : ℕ → List Char → Option (List (String × JValue) × List Char)
  | 0, _ => none
  | fuel + 1, cs =>
    match skipWs cs with
    | '"' :: r =>
      (match parseJStringBody [] r with
       | none => none
       | some (k, r1) =>
         match skipWs r1 with
         | ':' :: r2 =>
           (match parseJValue fuel r2 with
            | none => none
            | some (v, r3) =>
              match skipWs r3 with
              | ',' :: r4 => (parseJMembers fuel r4).map (fun p => ((k, v) :: p.1, p.2))
              | '}' :: r4 => some ([(k, v)], r4)
              | _ => none)
         | _ => none)
    | _ => none

end

/-- Models `json.loads`: parse a complete JSON document; trailing whitespace is
allowed, any other trailing content is an error. -/
def jsonParse (s : String) : Option JValue :=
  match parseJValue (2 * s.length + 2) s.data with
  | some (v, rest) => if (skipWs rest).isEmpty then some v else none
  | none => none

/-! ### A model of Python `float(x)` -/

/-- Whitespace stripped by `float(str)`. -/
def pyWs (c : Char) : Bool :=
  c = ' ' || c = '\t' || c = '\n' || c = '\r' || c = '\x0b' || c = '\x0c'

/-- Python float literal syntax accepted by `float(str)`: optional sign,
digits with an optional fractional part (at least one digit on either
side), optional exponent; surrounding whitespace is stripped.
(`inf`/`nan` and digit-group underscores are not modelled; no claim
exercises them.) -/
def parsePyFloatChars (cs0 : List Char) : Option ℚ :=
  let cs := ((cs0.dropWhile pyWs).reverse.dropWhile pyWs).reverse
  let (sgn, cs1) : ℚ × List Char :=
    match cs with
    | '-' :: r => (-1, r)
    | '+' :: r => (1, r)
    | _ => (1, cs)
  let ip := cs1.takeWhile Char.isDigit
  let r1 := cs1.dropWhile Char.isDigit
  let (fp, r2) : List Char × List Char :=
    match r1 with
    | '.' :: r => (r.takeWhile Char.isDigit, r.dropWhile Char.isDigit)
    | _ => ([], r1)
  if ip.isEmpty ∧ fp.isEmpty then none
  else
    let mantissa : ℚ :=
      sgn * ((digitsToNat ip : ℚ) + (digitsToNat fp : ℚ) / (10 : ℚ) ^ fp.length)
    match r2 with
    | [] => some mantissa
    | 'e' :: r =>
      (parseExpTail r).bind
        (fun p => if p.2.isEmpty then some (mantissa * (10 : ℚ) ^ p.1) else none)
    | 'E' :: r =>
      (parseExpTail r).bind
        (fun p => if p.2.isEmpty then some (mantissa * (10 : ℚ) ^ p.1) else none)
    | _ => none

/-- Python `float(x)` on a JSON value: numbers and booleans convert, numeric
strings parse, everything else (`None`, lists, dicts, non-numeric strings)
raises — modelled as `none`. -/
def pyFloat : JValue → Option ℚ
  | .num q => some q
  | .bool b => some (if b then 1 else 0)
  | .str s => parsePyFloatChars s.data
  | .null => none
  | .arr _ => none
  | .obj _ => none

/-! ### Sessions, exceptions and `DevinClient.wait_for_completion` -/

/-- The `models.DevinSession` record (the fields the client reads; `created_at` is a
wall-clock timestamp and is omitted).  `structured_output` holds the value
produced by the normalization in `get_session_status`. -/
structure DevinSession where
  session_id : String
  url : JValue
  status : String
  structured_output : JValue
  output : JValue

/-- The exceptions that can escape the session-waiting code.  `generic` is
the builtin `Exception`; `sessionTimeoutError` is
`exceptions.SessionTimeoutError` (a subclass of `DevinAPIError`, declared
for "Devin session timeout errors" — the client code never raises it). -/
inductive PyExc : Type where
  | generic : String → PyExc
  | sessionTimeoutError : String → PyExc
deriving DecidableEq

/-- The message of the `Exception` raised by `wait_for_completion` on
timeout. -/
def timeoutMessage (session_id : String) (max_wait_time : ℚ) : String :=
  "Session " ++ session_id ++ " did not complete within " ++
    toString max_wait_time ++ " seconds"

/-- The statuses `wait_for_completion` treats as terminal, in source
order. -/
def terminalStatuses : List String :=
  ["blocked", "stopped", "completed", "suspended"]

/-- Result of one run of `wait_for_completion`. -/
inductive WaitRes : Type where
  | ok : DevinSession → WaitRes
  | err : PyExc → WaitRes

/-- One run of `wait_for_completion`, instrumented: the returned session or
raised exception, the number of `get_session_status` polls performed, the
trace of durations passed to `asyncio.sleep` (in order), and the final
value of the `total_wait` accumulator. -/
structure WaitOutcome where
  result : WaitRes
  polls : ℕ
  sleeps : List ℚ
  total_wait : ℚ

/-- The `while total_wait < max_wait_time` loop of
`DevinClient.wait_for_completion` (lines 95–110 of `devin_client.py`):
poll, return on a terminal status, otherwise sleep `min(backoff, 30)`,
multiply `backoff` by 1.5 and add the *new* backoff to `total_wait`.
`poll i` is the session returned by the `(i+1)`-st call to
`get_session_status`.  The fuel argument only bounds the iteration count;
`waitLoop_fuel_stable` below shows the top-level fuel is never exhausted
while the loop condition still holds, so the fuel-out branch coincides
with the loop's own timeout exit. -/
def waitLoop (poll : ℕ → DevinSession) (session_id : String) (max_wait_time : ℚ) :
    ℕ → ℚ → ℚ → ℕ → List ℚ → WaitOutcome
  | 0, _, total_wait, polls, sleeps =>
    ⟨.err (.generic (timeoutMessage session_id max_wait_time)), polls,
      sleeps.reverse, total_wait⟩
  | fuel + 1, backoff, total_wait, polls, sleeps =>
    if total_wait < max_wait_time then
      let session := poll polls
      if session.status ∈ terminalStatuses then
        ⟨.ok session, polls + 1, sleeps.reverse, total_wait⟩
      else
        waitLoop poll session_id max_wait_time fuel (backoff * (3/2))
          (total_wait + backoff * (3/2)) (polls + 1) (min backoff 30 :: sleeps)
    else
      ⟨.err (.generic (timeoutMessage session_id max_wait_time)), polls,
        sleeps.reverse, total_wait⟩

/-- Fuel that suffices for any run: each iteration grows `total_wait` by at
least 3/2. -/
def waitFuel (max_wait_time : ℚ) : ℕ :=
  max_wait_time.ceil.toNat + 1

/-- Embeds `DevinClient.wait_for_completion(session_id, max_wait_time)` with the
polled sessions supplied by the oracle `poll`.  The source default for
`max_wait_time` is 1800. -/
def wait_for_completion (poll : ℕ → DevinSession) (session_id : String)
    (max_wait_time : ℚ) : WaitOutcome :=
  waitLoop poll session_id max_wait_time (waitFuel max_wait_time) 1 0 0 []

/-! ### `DevinClient.get_session_status` normalization -/

/-- The structured-output normalization in `get_session_status` (lines
73–84 of `devin_client.py`): take `structured_output` or (falling back by
truthiness) `output`; if the result is falsy use the whole response
object; if it is a string, `json.loads` it, wrapping parse failures as
`{"text": <original string>}`. -/
def normalizeStructured (o : JValue) : JValue :=
  let s0 := (o.jget "structured_output").getD .null
  let s1 := if s0.truthy then s0 else (o.jget "output").getD .null
  if !s1.truthy then o
  else
    match s1 with
    | .str s =>
      (match jsonParse s with
       | some v => v
       | none => .obj [("text", .str s)])
    | v => v

/-- The pure part of `get_session_status`: build the `DevinSession` from
the response JSON `data` (non-dict responses are treated as `{}`).  The
status is `status_enum` or `status` or `"unknown"`; a non-string status
value is coerced by the pydantic `str` field and is not exercised here. -/
def get_session_status_pure (session_id : String) (data : JValue) : DevinSession :=
  let o := match data with
    | .obj kvs => JValue.obj kvs
    | _ => .obj []
  { session_id := session_id
    url := o.getOr "url" ((o.jget "session_url").getD (.str ""))
    status :=
      match o.getOr "status_enum" (o.getOr "status" (.str "unknown")) with
      | .str s => s
      | _ => "unknown"
    structured_output := normalizeStructured o
    output := o.getOr "output" (o.getOr "raw_output" (.str "")) }

/-! ### Result extraction in `scope_issue` and `generate_summary` -/

/-- The confidence-score extraction shared verbatim by `scope_issue`
(lines 151–155) and `generate_summary` (lines 290–294):
`output.get("confidence_score") or output.get("confidence") or 0.5`,
cast with `float(...)`, defaulting to 0.5 when the cast raises. -/
def confidenceScoreFrom (output : JValue) : ℚ :=
  let cs_raw := output.getOr "confidence_score" (output.getOr "confidence" (.num (5/10)))
  (pyFloat cs_raw).getD (5/10)

/-- The `models.IssueScopeResult` record (fields as extracted; values that the code
passes through unconverted are kept as JSON values). -/
structure IssueScopeResult where
  issue_number : ℕ
  confidence_score : ℚ
  confidence_level : ConfidenceLevel
  complexity_assessment : JValue
  estimated_effort : JValue
  required_skills : JValue
  action_plan : JValue
  risks : JValue
  session_id : String
  session_url : JValue

/-- The pure tail of `DevinClient.scope_issue` (lines 144–175): normalize
the completed session's structured output (`or {}`, strings re-parsed with
failures becoming `{}`) and extract the scope-result fields by
truthiness-ordered alias fallback. -/
def scope_issue_pure (issue_number : ℕ) (session_id : String) (session_url : JValue)
    (completed : DevinSession) : IssueScopeResult :=
  let o0 := if completed.structured_output.truthy then completed.structured_output else .obj []
  let output :=
    match o0 with
    | .str s => (jsonParse s).getD (.obj [])
    | v => v
  let confidence_score := confidenceScoreFrom output
  { issue_number := issue_number
    confidence_score := confidence_score
    confidence_level := scopeConfidenceLevel confidence_score
    complexity_assessment :=
      output.getOr "complexity_assessment" (output.getOr "complexity" (.str "Analysis pending"))
    estimated_effort :=
      output.getOr "estimated_effort" (output.getOr "effort" (.str "Effort estimation pending"))
    required_skills :=
      output.getOr "required_skills"
        (output.getOr "skills" (.arr [.str "General development skills"]))
    action_plan :=
      output.getOr "action_plan"
        (output.getOr "plan" (.arr [.str "Analysis and planning required"]))
    risks := output.getOr "risks" (.arr [.str "Standard implementation risks"])
    session_id := session_id
    session_url := session_url }

/-- The `models.TaskCompletionResult` record (fields as extracted). -/
structure TaskCompletionResult where
  issue_number : ℕ
  status : JValue
  completion_summary : JValue
  files_modified : JValue
  pull_request_url : Option JValue
  session_id : String
  session_url : JValue
  success : Bool
  confidence_score : ℚ
  confidence_level : ConfidenceLevel
  complexity_assessment : JValue
  implementation_quality : JValue
  required_skills : JValue
  action_plan : JValue
  risks : JValue
  test_coverage : JValue

/-- The fallback payload synthesized by `generate_summary` (lines 271–288)
when the completed session produced no structured output but ended in a
success-like status. -/
def summaryFallback (issue_number : ℕ) (title : String) : JValue :=
  .obj
    [ ("status", .str "completed"),
      ("completion_summary",
        .str ("Successfully completed issue #" ++ natDecimalString issue_number ++
          ": " ++ title)),
      ("files_modified", .arr []),
      ("success", .bool true),
      ("confidence_score", .num (8/10)),
      ("confidence_level", .str "high"),
      ("complexity_assessment", .str "Successfully analyzed and completed the issue"),
      ("implementation_quality", .str "High quality implementation"),
      ("required_skills", .arr [.str "Python", .str "Software Development"]),
      ("action_plan",
        .arr [.str "Analyzed the GitHub issue requirements",
          .str "Implemented the necessary code changes",
          .str "Created pull request with the solution"]),
      ("risks", .arr [.str "Standard implementation risks"]),
      ("test_coverage", .str "Appropriate testing performed") ]

/-- The statuses under which `generate_summary` synthesizes the fallback
payload, in source order. -/
def successLikeStatuses : List String :=
  ["suspended", "completed", "finished"]

/-- The pure tail of `DevinClient.generate_summary` (lines 263–320):
normalize the completed session's structured output (`or {}`, strings
re-parsed with failures becoming `{}`), synthesize the fallback payload
when the output is falsy and the status is success-like, then extract the
completion-result fields by truthiness-ordered alias fallback. -/
def generate_summary_pure (issue_number : ℕ) (title : String) (session_id : String)
    (session_url : JValue) (completed : DevinSession) : TaskCompletionResult :=
  let o0 := if completed.structured_output.truthy then completed.structured_output else .obj []
  let o1 :=
    match o0 with
    | .str s => (jsonParse s).getD (.obj [])
    | v => v
  let output :=
    if !o1.truthy && completed.status ∈ successLikeStatuses then
      summaryFallback issue_number title
    else o1
  let confidence_score := confidenceScoreFrom output
  { issue_number := issue_number
    status := output.getOr "status" (.str "unknown")
    completion_summary :=
      output.getOr "completion_summary" (output.getOr "summary" (.str "No summary available"))
    files_modified := output.getOr "files_modified" (output.getOr "files" (.arr []))
    pull_request_url := output.jget "pull_request_url"
    session_id := session_id
    session_url := session_url
    success := ((output.jget "success").getD (.bool false)).truthy
    confidence_score := confidence_score
    confidence_level := summaryConfidenceLevel confidence_score
    complexity_assessment :=
      output.getOr "complexity_assessment" (output.getOr "complexity" (.str "Unknown complexity"))
    implementation_quality := output.getOr "implementation_quality" (.str "Unknown quality")
    required_skills := output.getOr "required_skills" (output.getOr "skills" (.arr []))
    action_plan := output.getOr "action_plan" (output.getOr "plan" (.arr []))
    risks := output.getOr "risks" (.arr [])
    test_coverage := output.getOr "test_coverage" (.str "Unknown coverage") }

/-! ### The result cache of `web_server.py` -/

/-- The contents of the cache directory: one JSON document per file name.
Writing a file replaces its previous contents (`open(..., 'w')`); the
`json.dump` / `json.load` serialization round-trip is the identity at this
level of modelling. -/
def CacheFS : Type := String → Option JValue

/-- The cache file name `f"cache/issue_{issue_number}_{result_type}.json"`
used by both `load_cached_result` and `save_cached_result`. -/
def cacheFileName (issue_number : ℕ) (result_type : String) : String :=
  "cache/issue_" ++ natDecimalString issue_number ++ "_" ++ result_type ++ ".json"

/-- Embeds `web_server.save_cached_result`: write the record to the key's file. -/
def save_cached_result (fs : CacheFS) (issue_number : ℕ) (result_type : String)
    (result_data : JValue) : CacheFS :=
  fun name =>
    if name = cacheFileName issue_number result_type then some result_data else fs name

/-- Embeds `web_server.load_cached_result`: read the key's file if it exists. -/
def load_cached_result (fs : CacheFS) (issue_number : ℕ) (result_type : String) :
    Option JValue :=
  fs (cacheFileName issue_number result_type)

/-- A key is "skipped" by a Python `or`-chain when it is absent or its
value is falsy. -/
def keyFalsy (o : JValue) (k : String) : Prop :=
  ∀ v, o.jget k = some v → v.truthy = false

/-- A mocked session with a given status (structured output irrelevant to
waiting). -/
def mockSession (status : String) : DevinSession :=
  ⟨"sess-1", .str "", status, .obj [], .str ""⟩

/-- The mocked `get_session_status` sequence `running, running, completed`
(and `completed` from then on). -/
def mockPoll : ℕ → DevinSession :=
  fun i => if i < 2 then mockSession "running" else mockSession "completed"

/-- A poll oracle whose status is never terminal. -/
def runningPoll : ℕ → DevinSession :=
  fun _ => mockSession "running"

/-- A completed session carrying a given normalized structured output. -/
def sessionWith (status : String) (o : JValue) : DevinSession :=
  ⟨"sess-1", .str "", status, o, .str ""⟩


/-! ## Supporting lemmas -/

/-- Lemma: `getOr` returns the stored value when the key is present with a truthy
value. -/
theorem JValue.getOr_pos {o v : JValue} {k : String} (alt : JValue)
    (hv : o.jget k = some v) (ht : v.truthy = true) : o.getOr k alt = v := by
  simp [JValue.getOr, hv, ht]


/-- Lemma: `getOr` falls through to the alternative when the key is absent or
falsy. -/
theorem JValue.getOr_neg {o : JValue} {k : String} (alt : JValue)
    (h : keyFalsy o k) : o.getOr k alt = alt := by
  unfold JValue.getOr
  cases hj : o.jget k with
  | none => rfl
  | some w => simp [h w hj]

/-- C4: `calculate_confidence_level` is a total deterministic bucketing:
`"high"` iff `s ≥ 0.8`, `"medium"` iff `0.5 ≤ s < 0.8`, `"low"` iff
`s < 0.5`, for every score including out-of-range ones. -/
theorem calculate_confidence_level_spec (s : ℚ) :
    (calculate_confidence_level s = "high" ↔ 8/10 ≤ s) ∧
    (calculate_confidence_level s = "medium" ↔ 5/10 ≤ s ∧ s < 8/10) ∧
    (calculate_confidence_level s = "low" ↔ s < 5/10) := by
  unfold calculate_confidence_level
  split_ifs with h1 h2
  · exact ⟨⟨fun _ => h1, fun _ => rfl⟩,
      ⟨fun h => absurd h (by decide), fun h => absurd h1 (not_le.mpr h.2)⟩,
      ⟨fun h => absurd h (by decide),
        fun h => absurd h1 (not_le.mpr (h.trans_le (by norm_num)))⟩⟩
  · exact ⟨⟨fun h => absurd h (by decide), fun h => absurd h h1⟩,
      ⟨fun _ => ⟨h2, not_le.mp h1⟩, fun _ => rfl⟩,
      ⟨fun h => absurd h (by decide), fun h => absurd h2 (not_le.mpr h)⟩⟩
  · exact ⟨⟨fun h => absurd h (by decide),
        fun h => absurd (le_trans (by norm_num) h) h2⟩,
      ⟨fun h => absurd h (by decide), fun h => absurd h.1 h2⟩,
      ⟨fun _ => not_le.mp h2, fun _ => rfl⟩⟩

/-- C9: the confidence bucketing written inline in `scope_issue` and in
`generate_summary` computes, for every score, the same level as the
standalone `utils.calculate_confidence_level`; the duplicated embeddings
are extensionally equal. -/
theorem inline_confidence_bucketing_agrees (s : ℚ) :
    (scopeConfidenceLevel s).value = calculate_confidence_level s ∧
    (summaryConfidenceLevel s).value = calculate_confidence_level s ∧
    scopeConfidenceLevel s = summaryConfidenceLevel s := by
  unfold scopeConfidenceLevel summaryConfidenceLevel calculate_confidence_level
  split_ifs <;> exact ⟨rfl, rfl, rfl⟩

/-- More fuel than `waitLoop` can consume does not change its result: once
`max_wait_time ≤ total_wait + (3/2) * fuel`, the loop's own exit condition
fires before the fuel runs out (each iteration grows `total_wait` by
`backoff * (3/2) ≥ 3/2`).  In particular the fuel chosen in
`wait_for_completion` is never the reason a run stops. -/
theorem waitLoop_fuel_stable (poll : ℕ → DevinSession) (sid : String) (max_wait_time : ℚ) :
    ∀ (fuel : ℕ) (backoff total_wait : ℚ) (polls : ℕ) (sleeps : List ℚ), 1 ≤ backoff →
      max_wait_time ≤ total_wait + 3/2 * (fuel : ℚ) →
      waitLoop poll sid max_wait_time (fuel + 1) backoff total_wait polls sleeps =
        waitLoop poll sid max_wait_time fuel backoff total_wait polls sleeps := by
  intro fuel
  induction fuel with
  | zero =>
    intro backoff total_wait polls sleeps _ hle
    simp only [Nat.cast_zero, mul_zero, add_zero] at hle
    simp [waitLoop, not_lt.mpr hle]
  | succ fuel ih =>
    intro backoff total_wait polls sleeps hb hle
    by_cases hlt : total_wait < max_wait_time
    · by_cases hterm : (poll polls).status ∈ terminalStatuses
      · simp [waitLoop, hlt, hterm]
      · simp only [waitLoop, hlt, if_true, hterm, if_false]
        apply ih
        · linarith
        · push_cast at hle ⊢
          nlinarith
    · simp [waitLoop, hlt]

/-- Whenever `waitLoop` returns a session, that session is the last one
polled, its status is terminal, every earlier poll was non-terminal, and
the recorded sleeps follow the capped exponential-backoff law from the
loop's starting backoff. -/
theorem waitLoop_ok_spec (poll : ℕ → DevinSession) (sid : String) (mx : ℚ) :
    ∀ (fuel : ℕ) (b t : ℚ) (p0 : ℕ) (sl : List ℚ) (s : DevinSession),
      (waitLoop poll sid mx fuel b t p0 sl).result = WaitRes.ok s →
      ∃ k, (waitLoop poll sid mx fuel b t p0 sl).polls = p0 + k + 1 ∧
        s = poll (p0 + k) ∧ s.status ∈ terminalStatuses ∧
        (∀ j, j < k → (poll (p0 + j)).status ∉ terminalStatuses) ∧
        (waitLoop poll sid mx fuel b t p0 sl).sleeps =
          sl.reverse ++ (List.range k).map (fun i => min (b * (3/2) ^ i) 30) := by
  intro fuel
  induction fuel with
  | zero =>
    intro b t p0 sl s h
    simp [waitLoop] at h
  | succ fuel ih =>
    intro b t p0 sl s h
    by_cases hlt : t < mx
    · by_cases hterm : (poll p0).status ∈ terminalStatuses
      · rw [waitLoop, if_pos hlt, if_pos hterm] at h ⊢
        obtain rfl : poll p0 = s := by
          simpa using h
        exact ⟨0, by simp, by simp, hterm, by omega, by simp⟩
      · rw [waitLoop, if_pos hlt, if_neg hterm] at h ⊢
        obtain ⟨k', hp, hs, hst, hnt, hsl⟩ := ih _ _ _ _ s h
        refine ⟨k' + 1, by omega, by simpa [Nat.add_comm, Nat.add_assoc,
          Nat.add_left_comm] using hs, hst, ?_, ?_⟩
        · intro j hj
          cases j with
          | zero => simpa using hterm
          | succ j' =>
            have := hnt j' (by omega)
            simpa [Nat.add_comm, Nat.add_assoc, Nat.add_left_comm] using this
        · rw [hsl, List.reverse_cons, List.range_succ_eq_map, List.map_cons,
            List.map_map, List.append_assoc, List.singleton_append]
          refine congrArg (sl.reverse ++ ·) ?_
          refine List.cons_eq_cons.mpr ⟨by norm_num, ?_⟩
          refine List.map_congr_left fun a _ => ?_
          simp only [Function.comp_apply]
          congr 1
          rw [pow_succ]
          ring
    · rw [waitLoop, if_neg hlt] at h
      simp at h



/-- Unfolding one non-terminal iteration of the wait loop. -/
theorem waitLoop_succ_nonterm (poll : ℕ → DevinSession) (sid : String) (mx : ℚ)
    (fuel : ℕ) (b t : ℚ) (p : ℕ) (sl : List ℚ) (hlt : t < mx)
    (hterm : (poll p).status ∉ terminalStatuses) :
    waitLoop poll sid mx (fuel + 1) b t p sl =
      waitLoop poll sid mx fuel (b * (3/2)) (t + b * (3/2)) (p + 1) (min b 30 :: sl) := by
  rw [waitLoop, if_pos hlt, if_neg hterm]

/-- Unfolding the returning iteration of the wait loop. -/
theorem waitLoop_succ_term (poll : ℕ → DevinSession) (sid : String) (mx : ℚ)
    (fuel : ℕ) (b t : ℚ) (p : ℕ) (sl : List ℚ) (hlt : t < mx)
    (hterm : (poll p).status ∈ terminalStatuses) :
    waitLoop poll sid mx (fuel + 1) b t p sl =
      ⟨.ok (poll p), p + 1, sl.reverse, t⟩ := by
  rw [waitLoop, if_pos hlt, if_pos hterm]

/-- Unfolding the timeout exit of the wait loop. -/
theorem waitLoop_exit (poll : ℕ → DevinSession) (sid : String) (mx : ℚ)
    (fuel : ℕ) (b t : ℚ) (p : ℕ) (sl : List ℚ) (hge : ¬t < mx) :
    waitLoop poll sid mx (fuel + 1) b t p sl =
      ⟨.err (.generic (timeoutMessage sid mx)), p, sl.reverse, t⟩ := by
  rw [waitLoop, if_neg hge]

/-- When no poll ever reports a terminal status and the fuel dominates the
deadline, the loop ends by raising the builtin `Exception` (not
`SessionTimeoutError`), and it does so only once the accumulator has
reached the deadline. -/
theorem waitLoop_all_nonterminal (poll : ℕ → DevinSession) (sid : String) (mx : ℚ)
    (hall : ∀ i, (poll i).status ∉ terminalStatuses) :
    ∀ (fuel : ℕ) (b t : ℚ) (p : ℕ) (sl : List ℚ), 1 ≤ b →
      mx ≤ t + 3/2 * (fuel : ℚ) →
      (waitLoop poll sid mx fuel b t p sl).result =
          WaitRes.err (.generic (timeoutMessage sid mx)) ∧
        mx ≤ (waitLoop poll sid mx fuel b t p sl).total_wait := by
  intro fuel
  induction fuel with
  | zero =>
    intro b t p sl _ hle
    simp only [Nat.cast_zero, mul_zero, add_zero] at hle
    exact ⟨rfl, hle⟩
  | succ fuel ih =>
    intro b t p sl hb hle
    by_cases hlt : t < mx
    · rw [waitLoop_succ_nonterm poll sid mx fuel b t p sl hlt (hall p)]
      apply ih
      · linarith
      · push_cast at hle ⊢
        nlinarith
    · rw [waitLoop_exit poll sid mx fuel b t p sl hlt]
      exact ⟨rfl, not_lt.mp hlt⟩


/-- The fully evaluated mocked run `running, running, completed` with the
default 1800 deadline: three polls, sleeps 1 and 3/2, returning the third
polled session with accumulator 15/4. -/
theorem mockRun :
    wait_for_completion mockPoll "sess-1" 1800 =
      ⟨.ok (mockSession "completed"), 3, [1, 3/2], 15/4⟩ := by
  have e0 : wait_for_completion mockPoll "sess-1" 1800 =
      waitLoop mockPoll "sess-1" 1800 (1800 + 1) 1 0 0 [] := rfl
  rw [e0]
  rw [waitLoop_succ_nonterm _ _ _ _ _ _ _ _ (by norm_num) (by decide)]
  norm_num [min_def]
  rw [show (1800 : ℕ) = 1799 + 1 from rfl]
  rw [waitLoop_succ_nonterm _ _ _ _ _ _ _ _ (by norm_num) (by decide)]
  norm_num [min_def]
  rw [show (1799 : ℕ) = 1798 + 1 from rfl]
  rw [waitLoop_succ_term _ _ _ _ _ _ _ _ (by norm_num) (by decide)]
  norm_num [mockPoll]

/-- The fully evaluated all-`running` run with the default 1800 deadline:
16 polls, the accumulator ends at 128943555/65536 ≈ 1967.5, and the loop
raises the builtin `Exception`. -/
theorem runningRun :
    wait_for_completion runningPoll "sess-1" 1800 =
      ⟨.err (.generic (timeoutMessage "sess-1" 1800)), 16,
        [1, 3/2, 9/4, 27/8, 81/16, 243/32, 729/64, 2187/128, 6561/256, 30, 30, 30, 30, 30, 30, 30],
        128943555/65536⟩ := by
  have e0 : wait_for_completion runningPoll "sess-1" 1800 =
      waitLoop runningPoll "sess-1" 1800 (1800 + 1) 1 0 0 [] := rfl
  rw [e0]
  rw [waitLoop_succ_nonterm _ _ _ _ _ _ _ _ (by norm_num) (by decide)]
  norm_num [min_def]
  rw [show (1800 : ℕ) = 1799 + 1 from rfl]
  rw [waitLoop_succ_nonterm _ _ _ _ _ _ _ _ (by norm_num) (by decide)]
  norm_num [min_def]
  rw [show (1799 : ℕ) = 1798 + 1 from rfl]
  rw [waitLoop_succ_nonterm _ _ _ _ _ _ _ _ (by norm_num) (by decide)]
  norm_num [min_def]
  rw [show (1798 : ℕ) = 1797 + 1 from rfl]
  rw [waitLoop_succ_nonterm _ _ _ _ _ _ _ _ (by norm_num) (by decide)]
  norm_num [min_def]
  rw [show (1797 : ℕ) = 1796 + 1 from rfl]
  rw [waitLoop_succ_nonterm _ _ _ _ _ _ _ _ (by norm_num) (by decide)]
  norm_num [min_def]
  rw [show (1796 : ℕ) = 1795 + 1 from rfl]
  rw [waitLoop_succ_nonterm _ _ _ _ _ _ _ _ (by norm_num) (by decide)]
  norm_num [min_def]
  rw [show (1795 : ℕ) = 1794 + 1 from rfl]
  rw [waitLoop_succ_nonterm _ _ _ _ _ _ _ _ (by norm_num) (by decide)]
  norm_num [min_def]
  rw [show (1794 : ℕ) = 1793 + 1 from rfl]
  rw [waitLoop_succ_nonterm _ _ _ _ _ _ _ _ (by norm_num) (by decide)]
  norm_num [min_def]
  rw [show (1793 : ℕ) = 1792 + 1 from rfl]
  rw [waitLoop_succ_nonterm _ _ _ _ _ _ _ _ (by norm_num) (by decide)]
  norm_num [min_def]
  rw [show (1792 : ℕ) = 1791 + 1 from rfl]
  rw [waitLoop_succ_nonterm _ _ _ _ _ _ _ _ (by norm_num) (by decide)]
  norm_num [min_def]
  rw [show (1791 : ℕ) = 1790 + 1 from rfl]
  rw [waitLoop_succ_nonterm _ _ _ _ _ _ _ _ (by norm_num) (by decide)]
  norm_num [min_def]
  rw [show (1790 : ℕ) = 1789 + 1 from rfl]
  rw [waitLoop_succ_nonterm _ _ _ _ _ _ _ _ (by norm_num) (by decide)]
  norm_num [min_def]
  rw [show (1789 : ℕ) = 1788 + 1 from rfl]
  rw [waitLoop_succ_nonterm _ _ _ _ _ _ _ _ (by norm_num) (by decide)]
  norm_num [min_def]
  rw [show (1788 : ℕ) = 1787 + 1 from rfl]
  rw [waitLoop_succ_nonterm _ _ _ _ _ _ _ _ (by norm_num) (by decide)]
  norm_num [min_def]
  rw [show (1787 : ℕ) = 1786 + 1 from rfl]
  rw [waitLoop_succ_nonterm _ _ _ _ _ _ _ _ (by norm_num) (by decide)]
  norm_num [min_def]
  rw [show (1786 : ℕ) = 1785 + 1 from rfl]
  rw [waitLoop_succ_nonterm _ _ _ _ _ _ _ _ (by norm_num) (by decide)]
  norm_num [min_def]
  rw [show (1785 : ℕ) = 1784 + 1 from rfl]
  rw [waitLoop_exit _ _ _ _ _ _ _ _ (by norm_num)]
  norm_num

/-- C1: `wait_for_completion` polls `get_session_status` in a loop and
returns the polled session as soon as its status is one of
`{completed, stopped, blocked, suspended}`; any other status is
non-terminal and polling continues after a sleep of `min(backoff, 30)`
with backoff starting at 1 and multiplied by 1.5 after each sleep; for the
mocked sequence `running, running, completed` exactly 3 polls occur and
the sleeps performed are 1 and 3/2. -/
theorem wait_for_completion_first_terminal :
    (∀ (poll : ℕ → DevinSession) (sid : String) (mx : ℚ) (s : DevinSession),
        (wait_for_completion poll sid mx).result = WaitRes.ok s →
        ∃ k, (wait_for_completion poll sid mx).polls = k + 1 ∧
          s = poll k ∧ s.status ∈ terminalStatuses ∧
          (∀ j, j < k → (poll j).status ∉ terminalStatuses) ∧
          (wait_for_completion poll sid mx).sleeps =
            (List.range k).map (fun i => min ((3/2) ^ i) 30)) ∧
    terminalStatuses = ["blocked", "stopped", "completed", "suspended"] ∧
    (wait_for_completion mockPoll "sess-1" 1800).polls = 3 ∧
    (wait_for_completion mockPoll "sess-1" 1800).sleeps = [1, 3/2] ∧
    (wait_for_completion mockPoll "sess-1" 1800).result = WaitRes.ok (mockSession "completed") := by
  refine ⟨?_, rfl, ?_, ?_, ?_⟩
  · intro poll sid mx s h
    obtain ⟨k, hp, hs, hst, hnt, hsl⟩ :=
      waitLoop_ok_spec poll sid mx (waitFuel mx) 1 0 0 [] s h
    refine ⟨k, by simpa using hp, by simpa using hs, hst,
      fun j hj => by simpa using hnt j hj, ?_⟩
    simpa [one_mul] using hsl
  · rw [mockRun]
  · rw [mockRun]
  · rw [mockRun]

/-- C1 witness: the general part applied to the mocked run, with its
hypothesis discharged by the concrete evaluation. -/
theorem wait_for_completion_first_terminal_witness :
    (mockSession "completed").status ∈ terminalStatuses := by
  obtain ⟨k, _, _, hst, _, _⟩ :=
    wait_for_completion_first_terminal.1 mockPoll "sess-1" 1800 (mockSession "completed")
      wait_for_completion_first_terminal.2.2.2.2
  exact hst

/-- C2: with every poll non-terminal, `wait_for_completion` fails once the
deadline (default 1800) has been reached by the accumulator — but it
raises the builtin `Exception`, never `exceptions.SessionTimeoutError`,
which the client code never constructs (the cited claim names
`SessionTimeoutError`; the code contradicts its own exception hierarchy
here). -/
theorem wait_timeout_raises_generic_exception :
    (wait_for_completion runningPoll "sess-1" 1800).result =
        WaitRes.err (PyExc.generic (timeoutMessage "sess-1" 1800)) ∧
    (∀ m, (wait_for_completion runningPoll "sess-1" 1800).result ≠
        WaitRes.err (PyExc.sessionTimeoutError m)) ∧
    1800 ≤ (wait_for_completion runningPoll "sess-1" 1800).total_wait := by
  have h1 : (wait_for_completion runningPoll "sess-1" 1800).result =
      WaitRes.err (PyExc.generic (timeoutMessage "sess-1" 1800)) := by
    rw [runningRun]
  refine ⟨h1, fun m hc => ?_, by rw [runningRun]; norm_num⟩
  rw [h1] at hc
  exact PyExc.noConfusion (WaitRes.err.inj hc)

/-- C3 counterexample: with the default 1800 deadline and every poll
non-terminal, the accumulator finishes at 128943555/65536 ≈ 1967.5,
overshooting the deadline by ≈ 167.5 — more than the cap of 30, refuting
"overshoot ... by up to the cap (30 time units)". -/
theorem wait_overshoot_exceeds_cap :
    (wait_for_completion runningPoll "sess-1" 1800).result =
        WaitRes.err (PyExc.generic (timeoutMessage "sess-1" 1800)) ∧
    1800 + 30 < (wait_for_completion runningPoll "sess-1" 1800).total_wait := by
  rw [runningRun]
  exact ⟨rfl, by norm_num⟩

/-- C3 (amended): each non-terminal iteration advances the accumulator by
the *updated* uncapped backoff (3/2 of the backoff whose capped value was
slept), never by the capped sleep `min(backoff, 30)`; consequently the
accumulator's final overshoot is the last uncapped increment, which can
exceed the cap — 128943555/65536 − 1800 ≈ 167.5 with the default 1800
deadline. -/
theorem wait_accumulator_advances_uncapped :
    (∀ (poll : ℕ → DevinSession) (sid : String) (mx : ℚ) (fuel : ℕ)
        (b t : ℚ) (p : ℕ) (sl : List ℚ),
        t < mx → (poll p).status ∉ terminalStatuses →
        waitLoop poll sid mx (fuel + 1) b t p sl =
          waitLoop poll sid mx fuel (b * (3/2)) (t + b * (3/2)) (p + 1)
            (min b 30 :: sl) ∧
        (1 ≤ b → b * (3/2) ≠ min b 30)) ∧
    (wait_for_completion runningPoll "sess-1" 1800).total_wait = 128943555/65536 ∧
    1800 + 30 < (wait_for_completion runningPoll "sess-1" 1800).total_wait := by
  refine ⟨fun poll sid mx fuel b t p sl hlt hterm =>
    ⟨waitLoop_succ_nonterm poll sid mx fuel b t p sl hlt hterm, fun hb => ?_⟩,
    by rw [runningRun], by rw [runningRun]; norm_num⟩
  rcases le_or_lt b 30 with h | h
  · rw [min_eq_left h]
    intro hc
    nlinarith
  · rw [min_eq_right h.le]
    intro hc
    nlinarith

/-- C3 witness: the iteration law applied at the first iteration of the
all-`running` run. -/
theorem wait_accumulator_advances_uncapped_witness :
    waitLoop runningPoll "sess-1" 1800 1 1 0 0 [] =
      waitLoop runningPoll "sess-1" 1800 0 (1 * (3/2)) (0 + 1 * (3/2)) (0 + 1)
        (min 1 30 :: []) ∧
    (1 : ℚ) * (3/2) ≠ min 1 30 := by
  have h := wait_accumulator_advances_uncapped.1 runningPoll "sess-1" 1800 0 1 0 0 []
    (by norm_num) (by decide)
  exact ⟨h.1, h.2 le_rfl⟩


/-- C5 counterexample: the payload `{"confidence_score": 0}` has the field
`confidence_score` present with value 0, yet the extracted confidence
score is the 0.5 default, not 0 — the fallback is by truthiness, not
presence. -/
theorem confidence_present_zero_skipped :
    (JValue.obj [("confidence_score", JValue.num 0)]).jget "confidence_score" =
      some (JValue.num 0) ∧
    confidenceScoreFrom (JValue.obj [("confidence_score", JValue.num 0)]) = 5/10 ∧
    (5/10 : ℚ) ≠ 0 := by
  refine ⟨rfl, ?_, by norm_num⟩
  norm_num [confidenceScoreFrom, JValue.getOr, JValue.jget, JValue.truthy, pyFloat,
    List.lookup, show ("confidence" == "confidence_score") = false from rfl]

/-- C5 (amended): field extraction follows ordered alias fallback *by
truthiness*: a present-but-falsy value is skipped.  The confidence score
is read from `confidence_score` when present and truthy, else from
`confidence` when present and truthy, else defaults to 0.5; the value is
cast with `float(...)` (failure defaulting to 0.5) and no range clamping
is applied; likewise `required_skills`/`skills`, `action_plan`/`plan`,
and `completion_summary`/`summary` with their defaults. -/
theorem alias_fallback_by_truthiness
    (o v : JValue) (q : ℚ) (i : ℕ) (t sid : String) (u : JValue)
    (kvs : List (String × JValue)) (ho : o = JValue.obj kvs) (hne : kvs ≠ []) :
    (o.jget "confidence_score" = some v → v.truthy = true →
      confidenceScoreFrom o = (pyFloat v).getD (5/10)) ∧
    (keyFalsy o "confidence_score" → o.jget "confidence" = some v → v.truthy = true →
      confidenceScoreFrom o = (pyFloat v).getD (5/10)) ∧
    (keyFalsy o "confidence_score" → keyFalsy o "confidence" →
      confidenceScoreFrom o = 5/10) ∧
    (o.jget "confidence_score" = some (JValue.num q) → q ≠ 0 →
      confidenceScoreFrom o = q) ∧
    (o.jget "required_skills" = some v → v.truthy = true →
      (generate_summary_pure i t sid u (sessionWith "completed" o)).required_skills = v) ∧
    (keyFalsy o "required_skills" → o.jget "skills" = some v → v.truthy = true →
      (generate_summary_pure i t sid u (sessionWith "completed" o)).required_skills = v) ∧
    (keyFalsy o "required_skills" → keyFalsy o "skills" →
      (generate_summary_pure i t sid u (sessionWith "completed" o)).required_skills =
        JValue.arr []) ∧
    (o.jget "action_plan" = some v → v.truthy = true →
      (generate_summary_pure i t sid u (sessionWith "completed" o)).action_plan = v) ∧
    (keyFalsy o "action_plan" → o.jget "plan" = some v → v.truthy = true →
      (generate_summary_pure i t sid u (sessionWith "completed" o)).action_plan = v) ∧
    (keyFalsy o "action_plan" → keyFalsy o "plan" →
      (generate_summary_pure i t sid u (sessionWith "completed" o)).action_plan =
        JValue.arr []) ∧
    (o.jget "completion_summary" = some v → v.truthy = true →
      (generate_summary_pure i t sid u (sessionWith "completed" o)).completion_summary = v) ∧
    (keyFalsy o "completion_summary" → o.jget "summary" = some v → v.truthy = true →
      (generate_summary_pure i t sid u (sessionWith "completed" o)).completion_summary = v) ∧
    (keyFalsy o "completion_summary" → keyFalsy o "summary" →
      (generate_summary_pure i t sid u (sessionWith "completed" o)).completion_summary =
        JValue.str "No summary available") := by
  subst ho
  have htr : (JValue.obj kvs).truthy = true := by
    cases kvs with
    | nil => exact absurd rfl hne
    | cons a l => simp [JValue.truthy]
  have hskills : (generate_summary_pure i t sid u
      (sessionWith "completed" (JValue.obj kvs))).required_skills =
      (JValue.obj kvs).getOr "required_skills"
        ((JValue.obj kvs).getOr "skills" (JValue.arr [])) := by
    simp [generate_summary_pure, sessionWith, htr]
  have hplan : (generate_summary_pure i t sid u
      (sessionWith "completed" (JValue.obj kvs))).action_plan =
      (JValue.obj kvs).getOr "action_plan"
        ((JValue.obj kvs).getOr "plan" (JValue.arr [])) := by
    simp [generate_summary_pure, sessionWith, htr]
  have hsumm : (generate_summary_pure i t sid u
      (sessionWith "completed" (JValue.obj kvs))).completion_summary =
      (JValue.obj kvs).getOr "completion_summary"
        ((JValue.obj kvs).getOr "summary" (JValue.str "No summary available")) := by
    simp [generate_summary_pure, sessionWith, htr]
  refine ⟨fun hv ht => ?_, fun hf hv ht => ?_, fun hf1 hf2 => ?_, fun hv hq => ?_,
    fun hv ht => ?_, fun hf hv ht => ?_, fun hf1 hf2 => ?_,
    fun hv ht => ?_, fun hf hv ht => ?_, fun hf1 hf2 => ?_,
    fun hv ht => ?_, fun hf hv ht => ?_, fun hf1 hf2 => ?_⟩
  · unfold confidenceScoreFrom
    rw [JValue.getOr_pos _ hv ht]
  · unfold confidenceScoreFrom
    rw [JValue.getOr_neg _ hf, JValue.getOr_pos _ hv ht]
  · unfold confidenceScoreFrom
    rw [JValue.getOr_neg _ hf1, JValue.getOr_neg _ hf2]
    rfl
  · unfold confidenceScoreFrom
    rw [JValue.getOr_pos _ hv (by simp [JValue.truthy, hq])]
    rfl
  · rw [hskills, JValue.getOr_pos _ hv ht]
  · rw [hskills, JValue.getOr_neg _ hf, JValue.getOr_pos _ hv ht]
  · rw [hskills, JValue.getOr_neg _ hf1, JValue.getOr_neg _ hf2]
  · rw [hplan, JValue.getOr_pos _ hv ht]
  · rw [hplan, JValue.getOr_neg _ hf, JValue.getOr_pos _ hv ht]
  · rw [hplan, JValue.getOr_neg _ hf1, JValue.getOr_neg _ hf2]
  · rw [hsumm, JValue.getOr_pos _ hv ht]
  · rw [hsumm, JValue.getOr_neg _ hf, JValue.getOr_pos _ hv ht]
  · rw [hsumm, JValue.getOr_neg _ hf1, JValue.getOr_neg _ hf2]

/-- C5 witness: a payload with an out-of-range truthy `confidence_score`
of 7 passes through uncast and unclamped. -/
theorem alias_fallback_by_truthiness_witness :
    confidenceScoreFrom (JValue.obj [("confidence_score", JValue.num 7)]) = 7 :=
  (alias_fallback_by_truthiness (JValue.obj [("confidence_score", JValue.num 7)])
      (JValue.num 7) 7 1 "t" "sess-1" (JValue.str "")
      [("confidence_score", JValue.num 7)] rfl (by simp)).2.2.2.1
    rfl (by norm_num)

/-- C6: when the completed session's structured payload is falsy (absent
or empty) and its terminal status is success-like (`suspended`,
`completed`, `finished`), `generate_summary` synthesizes the conservative
fallback record — generic summary, empty modified-file list, 0.8/`high`
default confidence, `success = true` — instead of failing. -/
theorem summary_fallback_on_empty_output
    (i : ℕ) (t sid : String) (u : JValue) (st : String) (o : JValue)
    (ho : o.truthy = false) (hst : st ∈ successLikeStatuses) :
    (generate_summary_pure i t sid u (sessionWith st o)).completion_summary =
      JValue.str ("Successfully completed issue #" ++ natDecimalString i ++ ": " ++ t) ∧
    (generate_summary_pure i t sid u (sessionWith st o)).files_modified = JValue.arr [] ∧
    (generate_summary_pure i t sid u (sessionWith st o)).confidence_score = 8/10 ∧
    (generate_summary_pure i t sid u (sessionWith st o)).confidence_level =
      ConfidenceLevel.high ∧
    (generate_summary_pure i t sid u (sessionWith st o)).success = true ∧
    (generate_summary_pure i t sid u (sessionWith st o)).status = JValue.str "completed" := by
  have hsumNe : ("Successfully completed issue #" ++ natDecimalString i ++ ": " ++ t) ≠ "" := by
    intro hc
    have hlen := congrArg String.length hc
    rw [String.length_append, String.length_append, String.length_append] at hlen
    have h30 : ("Successfully completed issue #").length = 30 := rfl
    rw [h30] at hlen
    simp at hlen
  have ht1 : ∀ q : ℚ, (JValue.num q).truthy = decide (q ≠ 0) := fun _ => rfl
  have ht2 : ∀ s : String, (JValue.str s).truthy = decide (s ≠ "") := fun _ => rfl
  have ht3 : ∀ xs : List JValue, (JValue.arr xs).truthy = !xs.isEmpty := fun _ => rfl
  have ht4 : ∀ b : Bool, (JValue.bool b).truthy = b := fun _ => rfl
  have ht5 : ∀ kvs : List (String × JValue), (JValue.obj kvs).truthy = !kvs.isEmpty :=
    fun _ => rfl
  refine ⟨?_, ?_, ?_, ?_, ?_, ?_⟩ <;>
    simp [generate_summary_pure, sessionWith, ho, hst, summaryFallback,
      JValue.getOr, JValue.jget, List.lookup, confidenceScoreFrom,
      pyFloat, summaryConfidenceLevel, hsumNe, ht1, ht2, ht3, ht4, ht5]

/-- C6 witness: the fallback synthesis at a concrete empty payload and
status `completed`. -/
theorem summary_fallback_on_empty_output_witness :
    (generate_summary_pure 42 "Fix bug" "sess-1" (JValue.str "")
      (sessionWith "completed" JValue.null)).confidence_score = 8/10 :=
  (summary_fallback_on_empty_output 42 "Fix bug" "sess-1" (JValue.str "") "completed"
    JValue.null rfl (by decide)).2.2.1

/-- C7: a string structured-output payload is parsed as JSON; on parse
failure it is wrapped as `{"text": <original string>}` and normalization
proceeds with that otherwise-empty object; concretely, the non-JSON
payload `"All good, done."` normalizes to a record whose `text` field is
the original string, and the completion result built from it gets the
default confidence 0.5 (level `medium`). -/
theorem string_payload_wrapped_on_parse_failure :
    (∀ (o : JValue) (s : String), o.jget "structured_output" = some (JValue.str s) →
        (JValue.str s).truthy = true → jsonParse s = none →
        normalizeStructured o = JValue.obj [("text", JValue.str s)]) ∧
    (get_session_status_pure "sess-1"
        (JValue.obj [("status", JValue.str "completed"),
          ("structured_output", JValue.str "All good, done.")])).structured_output =
      JValue.obj [("text", JValue.str "All good, done.")] ∧
    (JValue.obj [("text", JValue.str "All good, done.")]).jget "text" =
      some (JValue.str "All good, done.") ∧
    (generate_summary_pure 1 "t" "sess-1" (JValue.str "")
        (get_session_status_pure "sess-1"
          (JValue.obj [("status", JValue.str "completed"),
            ("structured_output", JValue.str "All good, done.")]))).confidence_score =
      5/10 ∧
    (generate_summary_pure 1 "t" "sess-1" (JValue.str "")
        (get_session_status_pure "sess-1"
          (JValue.obj [("status", JValue.str "completed"),
            ("structured_output", JValue.str "All good, done.")]))).confidence_level =
      ConfidenceLevel.medium := by
  have hparse : jsonParse "All good, done." = none := rfl
  have hnorm : (get_session_status_pure "sess-1"
      (JValue.obj [("status", JValue.str "completed"),
        ("structured_output", JValue.str "All good, done.")])).structured_output =
      JValue.obj [("text", JValue.str "All good, done.")] := by
    simp [get_session_status_pure, normalizeStructured, JValue.jget, List.lookup,
      hparse, show (JValue.str "All good, done.").truthy = true from rfl]
  refine ⟨fun o s h ht hp => ?_, hnorm, rfl, ?_, ?_⟩
  · unfold normalizeStructured
    rw [h]
    simp only [Option.getD_some, ht, if_pos, Bool.not_true]
    rw [if_neg (by simp), hp]
  · rw [show (generate_summary_pure 1 "t" "sess-1" (JValue.str "")
        (get_session_status_pure "sess-1"
          (JValue.obj [("status", JValue.str "completed"),
            ("structured_output", JValue.str "All good, done.")]))).confidence_score =
        confidenceScoreFrom (JValue.obj [("text", JValue.str "All good, done.")]) from by
      simp [generate_summary_pure, hnorm,
        show (JValue.obj [("text", JValue.str "All good, done.")]).truthy = true from rfl]]
    rfl
  · rw [show (generate_summary_pure 1 "t" "sess-1" (JValue.str "")
        (get_session_status_pure "sess-1"
          (JValue.obj [("status", JValue.str "completed"),
            ("structured_output", JValue.str "All good, done.")]))).confidence_level =
        summaryConfidenceLevel (confidenceScoreFrom
          (JValue.obj [("text", JValue.str "All good, done.")])) from by
      simp [generate_summary_pure, hnorm,
        show (JValue.obj [("text", JValue.str "All good, done.")]).truthy = true from rfl]]
    rw [show confidenceScoreFrom (JValue.obj [("text", JValue.str "All good, done.")]) =
      5/10 from rfl]
    rw [summaryConfidenceLevel]
    norm_num

/-- C7 witness: the general wrapping rule applied at the concrete non-JSON
payload. -/
theorem string_payload_wrapped_on_parse_failure_witness :
    normalizeStructured (JValue.obj [("structured_output",
        JValue.str "All good, done.")]) =
      JValue.obj [("text", JValue.str "All good, done.")] :=
  string_payload_wrapped_on_parse_failure.1
    (JValue.obj [("structured_output", JValue.str "All good, done.")])
    "All good, done." rfl rfl rfl

/-- Decimal digit characters are digits. -/
theorem digitToChar_isDigit {d : ℕ} (hd : d < 10) : (digitToChar d).isDigit = true := by
  interval_cases d <;> decide

/-- Reading back a decimal digit character. -/
theorem digitToChar_val {d : ℕ} (hd : d < 10) : (digitToChar d).toNat - 48 = d := by
  interval_cases d <;> decide

/-- Reading back a digit-character rendering with the `int()` fold gives
the number the digits denote. -/
theorem digitsToNat_of_digitList (l : List ℕ) (hl : ∀ d ∈ l, d < 10) :
    digitsToNat (l.reverse.map digitToChar) = Nat.ofDigits 10 l := by
  induction l with
  | nil => rfl
  | cons d ds ih =>
    have hrw : ((d :: ds).reverse.map digitToChar) =
        ds.reverse.map digitToChar ++ [digitToChar d] := by
      simp
    rw [hrw, digitsToNat, List.foldl_append]
    have : List.foldl (fun n c => 10 * n + (c.toNat - 48))
        (digitsToNat (ds.reverse.map digitToChar)) [digitToChar d] =
        10 * digitsToNat (ds.reverse.map digitToChar) + ((digitToChar d).toNat - 48) := rfl
    rw [show List.foldl (fun n c => 10 * n + (c.toNat - 48)) 0 (ds.reverse.map digitToChar) =
      digitsToNat (ds.reverse.map digitToChar) from rfl, this,
      ih (fun e he => hl e (List.mem_cons_of_mem _ he)),
      digitToChar_val (hl d (List.mem_cons_self _ _)), Nat.ofDigits_cons]
    omega

/-- Roundtrip `int(str(n)) = n`: the decimal rendering read back by the digit fold. -/
theorem digitsToNat_natDecimalChars (n : ℕ) : digitsToNat (natDecimalChars n) = n := by
  unfold natDecimalChars
  split_ifs with h
  · subst h; rfl
  · rw [digitsToNat_of_digitList _ (fun d hd => Nat.digits_lt_base (by norm_num) hd),
      Nat.ofDigits_digits]

/-- Every character of the decimal rendering is a digit. -/
theorem natDecimalChars_isDigit (n : ℕ) :
    ∀ c ∈ natDecimalChars n, c.isDigit = true := by
  unfold natDecimalChars
  split_ifs with h
  · intro c hc
    simp only [List.mem_singleton] at hc
    subst hc
    decide
  · intro c hc
    simp only [List.mem_map, List.mem_reverse] at hc
    obtain ⟨d, hd, rfl⟩ := hc
    exact digitToChar_isDigit (Nat.digits_lt_base (by norm_num) hd)

/-- The decimal rendering is never empty. -/
theorem natDecimalChars_ne_nil (n : ℕ) : natDecimalChars n ≠ [] := by
  unfold natDecimalChars
  split_ifs with h
  · simp
  · simp [Nat.digits_ne_nil_iff_ne_zero, h]

/-- Stripping a literal that is literally there succeeds with the rest. -/
theorem dropLit_self_append (p cs : List Char) : dropLit p (p ++ cs) = some cs := by
  induction p with
  | nil => rfl
  | cons c ps ih => simp [dropLit, ih]

/-- Computing `takeWhile` over a run satisfying the predicate followed by a failing
character keeps exactly the run. -/
theorem takeWhile_append_run {p : Char → Bool} (a : List Char) (x : Char)
    (rest : List Char) (ha : ∀ c ∈ a, p c = true) (hx : p x = false) :
    (a ++ x :: rest).takeWhile p = a := by
  induction a with
  | nil => simp [List.takeWhile_cons, hx]
  | cons c as ih =>
    have hc := ha c (List.mem_cons_self _ _)
    have hrest := ih (fun d hd => ha d (List.mem_cons_of_mem _ hd))
    simp [List.takeWhile_cons, hc, hrest]

/-- The `dropWhile` counterpart of `takeWhile_append_run`. -/
theorem dropWhile_append_run {p : Char → Bool} (a : List Char) (x : Char)
    (rest : List Char) (ha : ∀ c ∈ a, p c = true) (hx : p x = false) :
    (a ++ x :: rest).dropWhile p = x :: rest := by
  induction a with
  | nil => simp [List.dropWhile_cons, hx]
  | cons c as ih =>
    have hc := ha c (List.mem_cons_self _ _)
    have hrest := ih (fun d hd => ha d (List.mem_cons_of_mem _ hd))
    simp [List.dropWhile_cons, hc, hrest]

/-- Fact: `takeWhile` keeps an all-satisfying list whole. -/
theorem takeWhile_all {p : Char → Bool} (l : List Char) (h : ∀ c ∈ l, p c = true) :
    l.takeWhile p = l := by
  induction l with
  | nil => rfl
  | cons c cs ih =>
    have hc := h c (List.mem_cons_self _ _)
    have hrest := ih (fun d hd => h d (List.mem_cons_of_mem _ hd))
    simp [List.takeWhile_cons, hc, hrest]

/-- A string with a unique separator splits uniquely: if neither prefix
run contains the separator, equal concatenations have equal parts. -/
theorem append_sep_inj {sep : Char} : ∀ (a b r1 r2 : List Char),
    (∀ c ∈ a, c ≠ sep) → (∀ c ∈ b, c ≠ sep) →
    a ++ sep :: r1 = b ++ sep :: r2 → a = b ∧ r1 = r2 := by
  intro a
  induction a with
  | nil =>
    intro b r1 r2 _ hb h
    cases b with
    | nil => simpa using h
    | cons d bs =>
      simp only [List.nil_append, List.cons_append, List.cons.injEq] at h
      exact absurd h.1.symm (hb d (List.mem_cons_self _ _))
  | cons c as ih =>
    intro b r1 r2 ha hb h
    cases b with
    | nil =>
      simp only [List.nil_append, List.cons_append, List.cons.injEq] at h
      exact absurd h.1 (ha c (List.mem_cons_self _ _))
    | cons d bs =>
      simp only [List.cons_append, List.cons.injEq] at h
      obtain ⟨rfl, h2⟩ := h
      obtain ⟨rfl, hr⟩ := ih bs r1 r2 (fun e he => ha e (List.mem_cons_of_mem _ he))
        (fun e he => hb e (List.mem_cons_of_mem _ he)) h2
      exact ⟨rfl, hr⟩

/-- Cache file names are injective for underscore-free result types: the
decimal issue number and the type can be read back off the name. -/
theorem cacheFileName_inj (m n : ℕ) (t kind : String)
    (h : cacheFileName m t = cacheFileName n kind) : m = n ∧ t = kind := by
  have hd := congrArg String.data h
  simp only [cacheFileName, natDecimalString, String.data_append, List.append_assoc,
    show ("_" : String).data = ['_'] from rfl, List.singleton_append,
    show (natDecimalString m).data = natDecimalChars m from rfl,
    show (natDecimalString n).data = natDecimalChars n from rfl] at hd
  have hd2 := List.append_cancel_left hd
  have hdig : ∀ (k : ℕ) (c : Char), c ∈ natDecimalChars k → c ≠ '_' := by
    intro k c hc hceq
    have hdc := natDecimalChars_isDigit k c hc
    rw [hceq] at hdc
    exact absurd hdc (by decide)
  obtain ⟨hD, hT⟩ := append_sep_inj (natDecimalChars m) (natDecimalChars n) _ _
    (hdig m) (hdig n) hd2
  refine ⟨?_, ?_⟩
  · have := congrArg digitsToNat hD
    rwa [digitsToNat_natDecimalChars, digitsToNat_natDecimalChars] at this
  · exact String.ext (List.append_cancel_right hT)

/-- C8: for every issue id and kind in `{scope, complete}`, saving then
loading the key returns the saved record, a second save for the same key
replaces the first (at most one cached entry per key), and a save leaves
every other key untouched. -/
theorem cache_roundtrip_and_replace (fs : CacheFS) (n m : ℕ) (kind t : String)
    (hkind : kind = "scope" ∨ kind = "complete")
    (ht : t = "scope" ∨ t = "complete") (v1 v2 : JValue) :
    load_cached_result (save_cached_result fs n kind v1) n kind = some v1 ∧
    load_cached_result (save_cached_result (save_cached_result fs n kind v1) n kind v2)
      n kind = some v2 ∧
    ((m, t) ≠ (n, kind) →
      load_cached_result (save_cached_result fs n kind v1) m t =
        load_cached_result fs m t) := by
  refine ⟨by simp [load_cached_result, save_cached_result],
    by simp [load_cached_result, save_cached_result], fun hne => ?_⟩
  simp only [load_cached_result, save_cached_result]
  rw [if_neg ?hc]
  case hc =>
    intro hc
    obtain ⟨rfl, rfl⟩ := cacheFileName_inj m n t kind hc
    exact hne rfl

/-- C8 witness: concrete round-trip at key `(42, scope)` with an unrelated
key left untouched. -/
theorem cache_roundtrip_and_replace_witness :
    load_cached_result (save_cached_result (fun _ => none) 42 "scope"
      (JValue.num 1)) 42 "scope" = some (JValue.num 1) :=
  (cache_roundtrip_and_replace (fun _ => none) 42 7 "scope" "complete"
    (Or.inl rfl) (Or.inr rfl) (JValue.num 1) (JValue.num 2)).1

/-- A list with a known last element is its `dropLast` plus that element. -/
theorem eq_dropLast_append_of_getLast {cs : List Char} {x : Char}
    (h : cs.getLast? = some x) : cs = cs.dropLast ++ [x] := by
  induction cs using List.reverseRecOn with
  | nil => simp at h
  | append_singleton l a _ =>
    rw [List.getLast?_concat] at h
    obtain rfl : a = x := by simpa using h
    rw [List.dropLast_concat]

/-- Fact: `isRepoChar` excludes the slash. -/
theorem isRepoChar_ne_slash {c : Char} (h : isRepoChar c = true) : c ≠ '/' := by
  intro hc
  subst hc
  exact absurd h (by decide)

/-- A validated repository name decomposes as a nonempty slash-free
segment, a single `'/'`, and a nonempty slash-free remainder (the
remainder may carry the final newline tolerated by Python's `$`). -/
theorem validate_decomp (cs : List Char) (h : validateRepoChars cs = true) :
    ∃ a b2, cs = a ++ '/' :: b2 ∧ a ≠ [] ∧ b2 ≠ [] ∧
      (∀ c ∈ a, c ≠ '/') ∧ (∀ c ∈ b2, c ≠ '/') := by
  simp only [validateRepoChars] at h
  split at h
  case h_2 => exact absurd h (by simp)
  case h_1 b heq =>
    simp only [Bool.and_eq_true] at h
    obtain ⟨⟨⟨hae, hbe⟩, haall⟩, hball⟩ := h
    have hsplit : stripFinalNewline cs =
        (stripFinalNewline cs).takeWhile (fun c => decide (c ≠ '/')) ++ '/' :: b := by
      conv_lhs => rw [← List.takeWhile_append_dropWhile
        (p := fun c => decide (c ≠ '/')) (l := stripFinalNewline cs)]
      rw [heq]
    have hA : ∀ c ∈ (stripFinalNewline cs).takeWhile (fun c => decide (c ≠ '/')),
        c ≠ '/' := by
      intro c hc
      exact isRepoChar_ne_slash (by
        rw [List.all_eq_true] at haall
        exact haall c hc)
    have hB : ∀ c ∈ b, c ≠ '/' := by
      intro c hc
      exact isRepoChar_ne_slash (by
        rw [List.all_eq_true] at hball
        exact hball c hc)
    have hane : (stripFinalNewline cs).takeWhile (fun c => decide (c ≠ '/')) ≠ [] := by
      intro hc
      rw [hc] at hae
      exact absurd hae (by simp)
    have hbne : b ≠ [] := by
      intro hc
      rw [hc] at hbe
      exact absurd hbe (by simp)
    by_cases hlast : cs.getLast? = some '\n'
    · have hcs : cs = stripFinalNewline cs ++ ['\n'] := by
        rw [stripFinalNewline, if_pos hlast]
        exact eq_dropLast_append_of_getLast hlast
      refine ⟨(stripFinalNewline cs).takeWhile (fun c => decide (c ≠ '/')),
        b ++ ['\n'], ?_, hane, by simp, hA, ?_⟩
      · conv_lhs => rw [hcs, hsplit]
        simp [List.append_assoc]
      · intro c hc
        rcases List.mem_append.mp hc with hcb | hcnl
        · exact hB c hcb
        · simp only [List.mem_singleton] at hcnl
          subst hcnl
          decide
    · have hcs : cs = stripFinalNewline cs := by
        rw [stripFinalNewline, if_neg hlast]
      exact ⟨_, b, by conv_lhs => rw [hcs, hsplit], hane, hbne, hA, hB⟩

/-- Evaluating `parse_issue_url`'s character-level matcher on a well-formed
issue URL built from slash-free segments and a digit run. -/
theorem parseIssueUrlChars_eval (a b2 D : List Char)
    (ha : a ≠ []) (hb : b2 ≠ []) (hA : ∀ c ∈ a, c ≠ '/') (hB : ∀ c ∈ b2, c ≠ '/')
    (hD : ∀ c ∈ D, c.isDigit = true) (hDne : D ≠ []) :
    parseIssueUrlChars ("https://github.com/".data ++
        ((a ++ '/' :: b2) ++ ("/issues/".data ++ D))) =
      some (a ++ '/' :: b2, digitsToNat D) := by
  have hp : ∀ c ∈ a, (fun c => decide (c ≠ '/')) c = true := fun c hc => by
    simp [hA c hc]
  have hq : ∀ c ∈ b2, (fun c => decide (c ≠ '/')) c = true := fun c hc => by
    simp [hB c hc]
  have hslash : (fun c => decide (c ≠ '/')) '/' = false := by simp
  have hae : a.isEmpty = false := by
    cases a with
    | nil => exact absurd rfl ha
    | cons c l => rfl
  have hbe : b2.isEmpty = false := by
    cases b2 with
    | nil => exact absurd rfl hb
    | cons c l => rfl
  have hDe : D.isEmpty = false := by
    cases D with
    | nil => exact absurd rfl hDne
    | cons c l => rfl
  have hr : (a ++ '/' :: b2) ++ ("/issues/".data ++ D) =
      a ++ '/' :: (b2 ++ ('/' :: ("issues/".data ++ D))) := by
    simp [List.append_assoc]
  rw [parseIssueUrlChars, dropLit_self_append, hr]
  dsimp only
  rw [takeWhile_append_run a '/' _ hp hslash, dropWhile_append_run a '/' _ hp hslash]
  show (if (a.isEmpty ||
        (List.takeWhile (fun x => decide (x ≠ '/'))
          (b2 ++ '/' :: ("issues/".data ++ D))).isEmpty) = true then none
      else
        match dropLit "/issues/".data
            (List.dropWhile (fun x => decide (x ≠ '/'))
              (b2 ++ '/' :: ("issues/".data ++ D))) with
        | none => none
        | some r4 =>
          if (List.takeWhile Char.isDigit r4).isEmpty = true then none
          else
            some (a ++ '/' :: List.takeWhile (fun x => decide (x ≠ '/'))
                (b2 ++ '/' :: ("issues/".data ++ D)),
              digitsToNat (List.takeWhile Char.isDigit r4))) =
    some (a ++ '/' :: b2, digitsToNat D)
  rw [takeWhile_append_run b2 '/' _ hq hslash, dropWhile_append_run b2 '/' _ hq hslash]
  rw [show dropLit "/issues/".data ('/' :: ("issues/".data ++ D)) = some D from
    dropLit_self_append _ _]
  dsimp only
  rw [takeWhile_all D hD]
  simp [hae, hbe, hDe]

/-- C10: for every repository name accepted by `validate_repo_name` and
every natural issue number `n`, `parse_issue_url` applied to
`"https://github.com/" + repo + "/issues/" + n` returns exactly
`(repo, n)`. -/
theorem parse_issue_url_of_validated (repo : String) (n : ℕ)
    (h : validate_repo_name repo = true) :
    parse_issue_url ("https://github.com/" ++ repo ++ "/issues/" ++ natDecimalString n) =
      some (repo, n) := by
  obtain ⟨a, b2, hcs, ha, hb, hA, hB⟩ := validate_decomp repo.data h
  have hdata : ("https://github.com/" ++ repo ++ "/issues/" ++ natDecimalString n).data =
      "https://github.com/".data ++
        ((a ++ '/' :: b2) ++ ("/issues/".data ++ natDecimalChars n)) := by
    simp only [String.data_append,
      show (natDecimalString n).data = natDecimalChars n from rfl, ← hcs]
    simp [List.append_assoc]
  unfold parse_issue_url
  rw [hdata, parseIssueUrlChars_eval a b2 _ ha hb hA hB (natDecimalChars_isDigit n)
    (natDecimalChars_ne_nil n)]
  rw [digitsToNat_natDecimalChars, ← hcs]
  rfl

/-- C10 witness: the round-trip at `octo-org/repo.js` and issue 347. -/
theorem parse_issue_url_of_validated_witness :
    parse_issue_url ("https://github.com/" ++ "octo-org/repo.js" ++ "/issues/" ++
      natDecimalString 347) = some ("octo-org/repo.js", 347) :=
  parse_issue_url_of_validated "octo-org/repo.js" 347 (by decide)
